import Mathlib

/-!
Verification development for the Fordex on-chain order book
(`src/src/lib.rs`).

The Rust source is shallowly embedded below:
* byte buffers (`&[u8]`) become `List Nat` (every genuine byte is `< 256`;
  predicates record the bound where it matters);
* `u64` values become `Nat` together with a `< 2 ^ 64` bound where it matters;
* fallible functions return an explicit result type; a Rust panic (an
  out-of-bounds slice taken by `array_ref!`) is a distinct `panicked` outcome,
  not an error value;
* the two `solana_program::ProgramError` variants actually used by the source
  are embedded as `ProgramError`.

Definitions are translated from the source. The storage-layout collaborator
(`OrderBook::from_account_info`, `OrderBook::pack`) is referenced by the
dispatcher but absent from the source; it is modelled from the spec and marked
as such in its doc comments.
-/

namespace Fordex

/-- The two `solana_program::ProgramError` variants the source uses:
`ProgramError::InvalidInstructionData` and `ProgramError::InvalidAccountData`. -/
inductive ProgramError where
  | invalidInstructionData
  | invalidAccountData
deriving DecidableEq

/-- Outcome of a fallible Rust function: `Ok`, `Err`, or a panic (the source
reaches a panic through the bounds check of `array_ref!`). -/
inductive RResult (α : Type) where
  | ok : α → RResult α
  | err : ProgramError → RResult α
  | panicked : RResult α
deriving DecidableEq

/-- `k` little-endian base-256 digits of `n` (the layout of
`u64::to_le_bytes` when `k = 8`). -/
def natToLeBytes : Nat → Nat → List Nat
  | 0, _ => []
  | k + 1, n => n % 256 :: natToLeBytes k (n / 256)

/-- `u64::to_le_bytes`. -/
def u64ToLeBytes (n : Nat) : List Nat :=
  natToLeBytes 8 n

/-- `u64::from_le_bytes` (read a little-endian byte list as a number). -/
def leBytesToNat : List Nat → Nat
  | [] => 0
  | b :: bs => b + 256 * leBytesToNat bs

/-- `solana_program::pubkey::Pubkey`: a 32-byte identity. The 32-byte width
and byte range of the Rust `[u8; 32]` are tracked by `Pubkey.Valid`. -/
structure Pubkey where
  bytes : List Nat
deriving DecidableEq

/-- `Pubkey::new_from_array` applied to `*array_ref![data, 0, 32]`. -/
def Pubkey.new_from_array (l : List Nat) : Pubkey :=
  ⟨l⟩

/-- A `Pubkey` value that a Rust `[u8; 32]` can represent. -/
def Pubkey.Valid (p : Pubkey) : Prop :=
  p.bytes.length = 32 ∧ ∀ b ∈ p.bytes, b < 256

instance (p : Pubkey) : Decidable p.Valid := by
  unfold Pubkey.Valid; infer_instance

/-- `enum OrderType { Buy, Sell }`. -/
inductive OrderType where
  | Buy
  | Sell
deriving DecidableEq

/-- `order_type as u8` (`Buy = 0`, `Sell = 1`). -/
def OrderType.toU8 : OrderType → Nat
  | .Buy => 0
  | .Sell => 1

/-- `struct Order { trader: Pubkey, amount: u64, price: u64, order_type: OrderType }`. -/
structure Order where
  trader : Pubkey
  amount : Nat
  price : Nat
  order_type : OrderType
deriving DecidableEq

/-- An `Order` value that the Rust struct can represent: the trader is a
genuine 32-byte array and `amount`, `price` fit in a `u64`. -/
def Order.Valid (o : Order) : Prop :=
  o.trader.Valid ∧ o.amount < 2 ^ 64 ∧ o.price < 2 ^ 64

instance (o : Order) : Decidable o.Valid := by
  unfold Order.Valid; infer_instance

/-- `Order::pack`: trader bytes, then `amount` little-endian, then `price`
little-endian, then the order-type byte — 49 bytes for a valid order. -/
def Order.pack (o : Order) : List Nat :=
  o.trader.bytes ++ u64ToLeBytes o.amount ++ u64ToLeBytes o.price ++ [o.order_type.toU8]

/-- `Order::unpack`. The source takes `array_ref![data, 0, 32]`,
`array_ref![data, 32, 8]` and `array_ref![data, 40, 8]` before looking at the
type byte; each of those is a checked slice, so any input shorter than 48
bytes panics before an error can be produced. With at least 48 bytes present
the type byte is read with `data.get(48)`; anything other than `Some(0)` or
`Some(1)` (including a missing byte 48) is `ProgramError::InvalidAccountData`. -/
def Order.unpack (data : List Nat) : RResult Order :=
  if 48 ≤ data.length then
    match data.get? 48 with
    | some 0 =>
        RResult.ok
          { trader := Pubkey.new_from_array (data.take 32)
            amount := leBytesToNat ((data.drop 32).take 8)
            price := leBytesToNat ((data.drop 40).take 8)
            order_type := OrderType.Buy }
    | some 1 =>
        RResult.ok
          { trader := Pubkey.new_from_array (data.take 32)
            amount := leBytesToNat ((data.drop 32).take 8)
            price := leBytesToNat ((data.drop 40).take 8)
            order_type := OrderType.Sell }
    | _ => RResult.err ProgramError.invalidAccountData
  else
    RResult.panicked

/-- `enum OrderBookInstruction`. -/
inductive OrderBookInstruction where
  | PlaceOrder : Order → OrderBookInstruction
  | GetBestBuyOrder : OrderBookInstruction
  | GetBestSellOrder : OrderBookInstruction
deriving DecidableEq

/-- An instruction the Rust enum can represent (the payload order is valid). -/
def OrderBookInstruction.Valid : OrderBookInstruction → Prop
  | .PlaceOrder o => o.Valid
  | .GetBestBuyOrder => True
  | .GetBestSellOrder => True

instance : (i : OrderBookInstruction) → Decidable i.Valid
  | .PlaceOrder o => inferInstanceAs (Decidable o.Valid)
  | .GetBestBuyOrder => inferInstanceAs (Decidable True)
  | .GetBestSellOrder => inferInstanceAs (Decidable True)

/-- `OrderBookInstruction::pack`: tag byte 0 followed by the packed order for
`PlaceOrder`, bare tag byte 1 or 2 for the queries. -/
def OrderBookInstruction.pack : OrderBookInstruction → List Nat
  | .PlaceOrder o => 0 :: o.pack
  | .GetBestBuyOrder => [1]
  | .GetBestSellOrder => [2]

/-- `OrderBookInstruction::unpack`: `data.get(0)` is
`ProgramError::InvalidInstructionData` on an empty buffer; tag 0 runs
`Order::unpack(&data[1..])` and maps any of its errors to
`ProgramError::InvalidInstructionData` (a panic inside `Order::unpack`
propagates); tags 1 and 2 are the two queries; any other tag is
`ProgramError::InvalidInstructionData`. -/
def OrderBookInstruction.unpack (data : List Nat) : RResult OrderBookInstruction :=
  match data with
  | [] => RResult.err ProgramError.invalidInstructionData
  | tag :: rest =>
    match tag with
    | 0 =>
        match Order.unpack rest with
        | RResult.ok o => RResult.ok (OrderBookInstruction.PlaceOrder o)
        | RResult.err _ => RResult.err ProgramError.invalidInstructionData
        | RResult.panicked => RResult.panicked
    | 1 => RResult.ok OrderBookInstruction.GetBestBuyOrder
    | 2 => RResult.ok OrderBookInstruction.GetBestSellOrder
    | _ => RResult.err ProgramError.invalidInstructionData

/-- `struct OrderBook { buy_orders: Vec<Order>, sell_orders: Vec<Order> }`. -/
structure OrderBook where
  buy_orders : List Order
  sell_orders : List Order
deriving DecidableEq

/-- `OrderBook::add_order`: push the order onto the side named by its
`order_type`. -/
def OrderBook.add_order (b : OrderBook) (o : Order) : OrderBook :=
  match o.order_type with
  | OrderType.Buy => { b with buy_orders := b.buy_orders ++ [o] }
  | OrderType.Sell => { b with sell_orders := b.sell_orders ++ [o] }

/-- One reduction step of `Iterator::max_by_key(|order| order.price)`: Rust's
`max_by_key` reduces with `core::cmp::max_by`, which keeps the accumulator only
when its key is strictly greater — on equal keys the second argument wins, so
the running maximum is replaced on ties. -/
def maxByPriceStep (acc x : Order) : Order :=
  if acc.price > x.price then acc else x

/-- One reduction step of `Iterator::min_by_key(|order| order.price)`: Rust's
`min_by_key` reduces with `core::cmp::min_by`, which keeps the first argument
on equal keys, so the running minimum survives ties. -/
def minByPriceStep (acc x : Order) : Order :=
  if acc.price > x.price then x else acc

/-- `OrderBook::get_best_buy_order`:
`self.buy_orders.iter().max_by_key(|order| order.price)`. -/
def OrderBook.get_best_buy_order (b : OrderBook) : Option Order :=
  match b.buy_orders with
  | [] => none
  | o :: os => some (os.foldl maxByPriceStep o)

/-- `OrderBook::get_best_sell_order`:
`self.sell_orders.iter().min_by_key(|order| order.price)`. -/
def OrderBook.get_best_sell_order (b : OrderBook) : Option Order :=
  match b.sell_orders with
  | [] => none
  | o :: os => some (os.foldl minByPriceStep o)

/-- The order-book invariant of the spec: every resting buy order has
`order_type == Buy` and every resting sell order has `order_type == Sell`. -/
def OrderBook.WellTyped (b : OrderBook) : Prop :=
  (∀ o ∈ b.buy_orders, o.order_type = OrderType.Buy) ∧
  (∀ o ∈ b.sell_orders, o.order_type = OrderType.Sell)

instance (b : OrderBook) : Decidable b.WellTyped := by
  unfold OrderBook.WellTyped; infer_instance

/-! ### Little-endian codec lemmas -/

theorem natToLeBytes_length (k n : Nat) : (natToLeBytes k n).length = k := by
  induction k generalizing n with
  | zero => rfl
  | succ k ih => simp [natToLeBytes, ih]

theorem leBytesToNat_natToLeBytes (k n : Nat) :
    leBytesToNat (natToLeBytes k n) = n % 256 ^ k := by
  induction k generalizing n with
  | zero => simp [natToLeBytes, leBytesToNat, Nat.mod_one]
  | succ k ih =>
      have h1 : n % (256 * 256 ^ k) % 256 = n % 256 :=
        Nat.mod_mod_of_dvd n ⟨256 ^ k, rfl⟩
      have h2 : n % (256 * 256 ^ k) / 256 = n / 256 % 256 ^ k :=
        Nat.mod_mul_right_div_self n 256 (256 ^ k)
      have h3 := Nat.div_add_mod (n % (256 * 256 ^ k)) 256
      simp only [natToLeBytes, leBytesToNat, ih]
      rw [pow_succ, mul_comm (256 ^ k) 256, ← h1, ← h2]
      omega

theorem leBytesToNat_u64ToLeBytes (n : Nat) (h : n < 2 ^ 64) :
    leBytesToNat (u64ToLeBytes n) = n := by
  have h8 : (256 : Nat) ^ 8 = 2 ^ 64 := by norm_num
  rw [u64ToLeBytes, leBytesToNat_natToLeBytes, h8, Nat.mod_eq_of_lt h]

theorem u64ToLeBytes_length (n : Nat) : (u64ToLeBytes n).length = 8 :=
  natToLeBytes_length 8 n

/-! ### `Order` codec lemmas -/

theorem Order.pack_length (o : Order) (h : o.trader.bytes.length = 32) :
    o.pack.length = 49 := by
  simp [Order.pack, h, u64ToLeBytes_length]

theorem Order.pack_assoc (o : Order) :
    o.pack = o.trader.bytes ++
      (u64ToLeBytes o.amount ++ (u64ToLeBytes o.price ++ [o.order_type.toU8])) := by
  simp [Order.pack, List.append_assoc]

theorem Order.unpack_pack (o : Order) (h : o.Valid) :
    Order.unpack o.pack = RResult.ok o := by
  obtain ⟨⟨hlen, _hbound⟩, ha, hp⟩ := h
  have hlen8a : (u64ToLeBytes o.amount).length = 8 := u64ToLeBytes_length _
  have hlen8p : (u64ToLeBytes o.price).length = 8 := u64ToLeBytes_length _
  have hpacklen : o.pack.length = 49 := Order.pack_length o hlen
  have htake : o.pack.take 32 = o.trader.bytes := by
    rw [Order.pack_assoc]; exact List.take_left' hlen
  have hdrop32 : o.pack.drop 32
      = u64ToLeBytes o.amount ++ (u64ToLeBytes o.price ++ [o.order_type.toU8]) := by
    rw [Order.pack_assoc]; exact List.drop_left' hlen
  have hamount : (o.pack.drop 32).take 8 = u64ToLeBytes o.amount := by
    rw [hdrop32]; exact List.take_left' hlen8a
  have hdrop40 : o.pack.drop 40 = u64ToLeBytes o.price ++ [o.order_type.toU8] := by
    have h1 : o.pack.drop 40 = (o.pack.drop 32).drop 8 := by
      rw [List.drop_drop]
    rw [h1, hdrop32]; exact List.drop_left' hlen8a
  have hprice : (o.pack.drop 40).take 8 = u64ToLeBytes o.price := by
    rw [hdrop40]; exact List.take_left' hlen8p
  have hdrop48 : o.pack.drop 48 = [o.order_type.toU8] := by
    have h1 : o.pack.drop 48 = (o.pack.drop 40).drop 8 := by
      rw [List.drop_drop]
    rw [h1, hdrop40]; exact List.drop_left' hlen8p
  have hget : o.pack.get? 48 = some o.order_type.toU8 := by
    have h2 := List.get?_drop o.pack 48 0
    rw [hdrop48] at h2
    simpa using h2.symm
  rw [Order.unpack, if_pos (by omega), hget]
  cases hty : o.order_type with
  | Buy =>
      simp only [OrderType.toU8]
      simp only [htake, hamount, hprice, Pubkey.new_from_array,
        leBytesToNat_u64ToLeBytes _ ha, leBytesToNat_u64ToLeBytes _ hp]
      cases o with
      | mk tr am pr ty => simp_all
  | Sell =>
      simp only [OrderType.toU8]
      simp only [htake, hamount, hprice, Pubkey.new_from_array,
        leBytesToNat_u64ToLeBytes _ ha, leBytesToNat_u64ToLeBytes _ hp]
      cases o with
      | mk tr am pr ty => simp_all

theorem Order.unpack_short (data : List Nat) (h : data.length < 48) :
    Order.unpack data = RResult.panicked := by
  rw [Order.unpack, if_neg (by omega)]

theorem Order.unpack_length48 (data : List Nat) (h : data.length = 48) :
    Order.unpack data = RResult.err ProgramError.invalidAccountData := by
  have hnone : data.get? 48 = none := List.get?_eq_none.mpr (by omega)
  rw [Order.unpack, if_pos (by omega), hnone]

theorem Order.unpack_bad_type (data : List Nat) (v : Nat) (hlen : 48 ≤ data.length)
    (hv : data.get? 48 = some v) (h2 : 2 ≤ v) :
    Order.unpack data = RResult.err ProgramError.invalidAccountData := by
  obtain ⟨k, rfl⟩ : ∃ k, v = k + 2 := ⟨v - 2, by omega⟩
  rw [Order.unpack, if_pos hlen, hv]
  rfl

theorem Order.unpack_type_buy (data : List Nat) (hlen : 48 ≤ data.length)
    (hv : data.get? 48 = some 0) :
    Order.unpack data = RResult.ok
      { trader := Pubkey.new_from_array (data.take 32)
        amount := leBytesToNat ((data.drop 32).take 8)
        price := leBytesToNat ((data.drop 40).take 8)
        order_type := OrderType.Buy } := by
  rw [Order.unpack, if_pos hlen, hv]

theorem Order.unpack_type_sell (data : List Nat) (hlen : 48 ≤ data.length)
    (hv : data.get? 48 = some 1) :
    Order.unpack data = RResult.ok
      { trader := Pubkey.new_from_array (data.take 32)
        amount := leBytesToNat ((data.drop 32).take 8)
        price := leBytesToNat ((data.drop 40).take 8)
        order_type := OrderType.Sell } := by
  rw [Order.unpack, if_pos hlen, hv]

theorem Order.unpack_take49 (data : List Nat) (h : 48 ≤ data.length) :
    Order.unpack (data.take 49) = Order.unpack data := by
  have h48 : 48 ≤ (data.take 49).length := by
    rw [List.length_take]; omega
  have hg : (data.take 49).get? 48 = data.get? 48 := List.get?_take (by omega)
  have ht32 : (data.take 49).take 32 = data.take 32 := by
    rw [List.take_take]; norm_num
  have hd32 : ((data.take 49).drop 32).take 8 = (data.drop 32).take 8 := by
    rw [List.drop_take, List.take_take]; norm_num
  have hd40 : ((data.take 49).drop 40).take 8 = (data.drop 40).take 8 := by
    rw [List.drop_take, List.take_take]; norm_num
  rw [Order.unpack, Order.unpack, if_pos h48, if_pos h, hg, ht32, hd32, hd40]

/-! ### `OrderBookInstruction` codec lemmas -/

theorem instruction_unpack_pack (i : OrderBookInstruction) (h : i.Valid) :
    OrderBookInstruction.unpack i.pack = RResult.ok i := by
  cases i with
  | PlaceOrder o =>
      have ho : Order.unpack o.pack = RResult.ok o := Order.unpack_pack o h
      simp [OrderBookInstruction.pack, OrderBookInstruction.unpack, ho]
  | GetBestBuyOrder => rfl
  | GetBestSellOrder => rfl

theorem instruction_pack_length (i : OrderBookInstruction) (h : i.Valid) :
    i.pack.length = match i with
      | OrderBookInstruction.PlaceOrder _ => 50
      | _ => 1 := by
  cases i with
  | PlaceOrder o =>
      have hlen : o.pack.length = 49 := Order.pack_length o h.1.1
      simp [OrderBookInstruction.pack, hlen]
  | GetBestBuyOrder => rfl
  | GetBestSellOrder => rfl

/-! ### Selection-engine lemmas

The fold of `maxByPriceStep` picks the *last* order attaining the maximum
price; the fold of `minByPriceStep` picks the *first* order attaining the
minimum price. Each split lemma exhibits the position of the result in the
traversed list together with the strict/weak bounds on the entries before and
after it. -/

theorem foldl_maxByPriceStep_split (os : List Order) : ∀ a : Order,
    (os.foldl maxByPriceStep a = a ∧ ∀ y ∈ os, y.price < a.price) ∨
    (∃ l₁ l₂, os = l₁ ++ (os.foldl maxByPriceStep a) :: l₂ ∧
      a.price ≤ (os.foldl maxByPriceStep a).price ∧
      (∀ y ∈ l₁, y.price ≤ (os.foldl maxByPriceStep a).price) ∧
      (∀ y ∈ l₂, y.price < (os.foldl maxByPriceStep a).price)) := by
  induction os with
  | nil =>
      intro a
      exact Or.inl ⟨rfl, by simp⟩
  | cons x os ih =>
      intro a
      rw [List.foldl_cons]
      by_cases hax : a.price > x.price
      · have hstep : maxByPriceStep a x = a := if_pos hax
        rw [hstep]
        rcases ih a with ⟨hr, hall⟩ | ⟨l₁, l₂, heq, hle, h₁, h₂⟩
        · refine Or.inl ⟨hr, ?_⟩
          intro y hy
          rcases List.mem_cons.mp hy with rfl | hy
          · exact hax
          · exact hall y hy
        · refine Or.inr ⟨x :: l₁, l₂, ?_, hle, ?_, h₂⟩
          · rw [List.cons_append, ← heq]
          · intro y hy
            rcases List.mem_cons.mp hy with rfl | hy
            · omega
            · exact h₁ y hy
      · have hstep : maxByPriceStep a x = x := if_neg hax
        rw [hstep]
        have hax' : a.price ≤ x.price := Nat.le_of_not_lt hax
        rcases ih x with ⟨hr, hall⟩ | ⟨l₁, l₂, heq, hle, h₁, h₂⟩
        · refine Or.inr ⟨[], os, ?_, ?_, by simp, ?_⟩
          · rw [hr]; rfl
          · rw [hr]; exact hax'
          · intro y hy; rw [hr]; exact hall y hy
        · refine Or.inr ⟨x :: l₁, l₂, ?_, ?_, ?_, h₂⟩
          · rw [List.cons_append, ← heq]
          · exact Nat.le_trans hax' hle
          · intro y hy
            rcases List.mem_cons.mp hy with rfl | hy
            · exact hle
            · exact h₁ y hy

theorem foldl_minByPriceStep_split (os : List Order) : ∀ a : Order,
    (os.foldl minByPriceStep a = a ∧ ∀ y ∈ os, a.price ≤ y.price) ∨
    (∃ l₁ l₂, os = l₁ ++ (os.foldl minByPriceStep a) :: l₂ ∧
      (os.foldl minByPriceStep a).price < a.price ∧
      (∀ y ∈ l₁, (os.foldl minByPriceStep a).price < y.price) ∧
      (∀ y ∈ l₂, (os.foldl minByPriceStep a).price ≤ y.price)) := by
  induction os with
  | nil =>
      intro a
      exact Or.inl ⟨rfl, by simp⟩
  | cons x os ih =>
      intro a
      rw [List.foldl_cons]
      by_cases hax : a.price > x.price
      · have hstep : minByPriceStep a x = x := if_pos hax
        rw [hstep]
        rcases ih x with ⟨hr, hall⟩ | ⟨l₁, l₂, heq, hlt, h₁, h₂⟩
        · refine Or.inr ⟨[], os, ?_, ?_, by simp, ?_⟩
          · rw [hr]; rfl
          · rw [hr]; exact hax
          · intro y hy; rw [hr]; exact hall y hy
        · refine Or.inr ⟨x :: l₁, l₂, ?_, ?_, ?_, h₂⟩
          · rw [List.cons_append, ← heq]
          · exact Nat.lt_trans hlt hax
          · intro y hy
            rcases List.mem_cons.mp hy with rfl | hy
            · exact hlt
            · exact h₁ y hy
      · have hstep : minByPriceStep a x = a := if_neg hax
        rw [hstep]
        have hax' : a.price ≤ x.price := Nat.le_of_not_lt hax
        rcases ih a with ⟨hr, hall⟩ | ⟨l₁, l₂, heq, hlt, h₁, h₂⟩
        · refine Or.inl ⟨hr, ?_⟩
          intro y hy
          rcases List.mem_cons.mp hy with rfl | hy
          · exact hax'
          · exact hall y hy
        · refine Or.inr ⟨x :: l₁, l₂, ?_, hlt, ?_, h₂⟩
          · rw [List.cons_append, ← heq]
          · intro y hy
            rcases List.mem_cons.mp hy with rfl | hy
            · omega
            · exact h₁ y hy

theorem get_best_buy_order_split (b : OrderBook) (h : b.buy_orders ≠ []) :
    ∃ r l₁ l₂, b.get_best_buy_order = some r ∧ b.buy_orders = l₁ ++ r :: l₂ ∧
      (∀ y ∈ b.buy_orders, y.price ≤ r.price) ∧
      (∀ y ∈ l₁, y.price ≤ r.price) ∧
      (∀ y ∈ l₂, y.price < r.price) := by
  cases hb : b.buy_orders with
  | nil => exact absurd hb h
  | cons o os =>
      have hbest : b.get_best_buy_order = some (os.foldl maxByPriceStep o) := by
        simp only [OrderBook.get_best_buy_order, hb]
      rcases foldl_maxByPriceStep_split os o with ⟨hr, hall⟩ | ⟨l₁, l₂, heq, hle, h₁, h₂⟩
      · refine ⟨o, [], os, by rw [hbest, hr], by simp, ?_, by simp, ?_⟩
        · intro y hy
          rcases List.mem_cons.mp hy with rfl | hy
          · exact Nat.le_refl _
          · exact Nat.le_of_lt (hall y hy)
        · intro y hy; exact hall y hy
      · refine ⟨os.foldl maxByPriceStep o, o :: l₁, l₂, hbest, ?_, ?_, ?_, h₂⟩
        · rw [List.cons_append, ← heq]
        · intro y hy
          rcases List.mem_cons.mp hy with rfl | hy
          · exact hle
          · rw [heq] at hy
            rcases List.mem_append.mp hy with hy | hy
            · exact h₁ y hy
            · rcases List.mem_cons.mp hy with rfl | hy
              · exact Nat.le_refl _
              · exact Nat.le_of_lt (h₂ y hy)
        · intro y hy
          rcases List.mem_cons.mp hy with rfl | hy
          · exact hle
          · exact h₁ y hy

theorem get_best_sell_order_split (b : OrderBook) (h : b.sell_orders ≠ []) :
    ∃ r l₁ l₂, b.get_best_sell_order = some r ∧ b.sell_orders = l₁ ++ r :: l₂ ∧
      (∀ y ∈ b.sell_orders, r.price ≤ y.price) ∧
      (∀ y ∈ l₁, r.price < y.price) ∧
      (∀ y ∈ l₂, r.price ≤ y.price) := by
  cases hb : b.sell_orders with
  | nil => exact absurd hb h
  | cons o os =>
      have hbest : b.get_best_sell_order = some (os.foldl minByPriceStep o) := by
        simp only [OrderBook.get_best_sell_order, hb]
      rcases foldl_minByPriceStep_split os o with ⟨hr, hall⟩ | ⟨l₁, l₂, heq, hlt, h₁, h₂⟩
      · refine ⟨o, [], os, by rw [hbest, hr], by simp, ?_, by simp, ?_⟩
        · intro y hy
          rcases List.mem_cons.mp hy with rfl | hy
          · exact Nat.le_refl _
          · exact hall y hy
        · intro y hy; exact hall y hy
      · refine ⟨os.foldl minByPriceStep o, o :: l₁, l₂, hbest, ?_, ?_, ?_, h₂⟩
        · rw [List.cons_append, ← heq]
        · intro y hy
          rcases List.mem_cons.mp hy with rfl | hy
          · exact Nat.le_of_lt hlt
          · rw [heq] at hy
            rcases List.mem_append.mp hy with hy | hy
            · exact Nat.le_of_lt (h₁ y hy)
            · rcases List.mem_cons.mp hy with rfl | hy
              · exact Nat.le_refl _
              · exact h₂ y hy
        · intro y hy
          rcases List.mem_cons.mp hy with rfl | hy
          · exact hlt
          · exact h₁ y hy

theorem get_best_buy_order_empty (b : OrderBook) (h : b.buy_orders = []) :
    b.get_best_buy_order = none := by
  simp only [OrderBook.get_best_buy_order, h]

theorem get_best_sell_order_empty (b : OrderBook) (h : b.sell_orders = []) :
    b.get_best_sell_order = none := by
  simp only [OrderBook.get_best_sell_order, h]

/-! ### Instruction dispatcher

The handlers in the source read the order-book account through
`OrderBook::from_account_info`, which is referenced but not defined anywhere in
the source; the storage codec below is therefore modelled from the spec. The
handlers themselves (`process_place_order`, `process_get_best_buy_order`,
`process_get_best_sell`) are translated from the source: each returns the Rust
`ProgramResult` together with the account's data buffer after the call. -/

instance {ε α : Type} [DecidableEq ε] [DecidableEq α] : DecidableEq (Except ε α)
  | Except.ok a, Except.ok b => decidable_of_iff (a = b) (by simp)
  | Except.ok _, Except.error _ => isFalse (by simp)
  | Except.error _, Except.ok _ => isFalse (by simp)
  | Except.error e, Except.error f => decidable_of_iff (e = f) (by simp)

/-- Modelled from the spec: decode `n` consecutive 49-byte order records,
returning the decoded orders and the remaining bytes; a record that is
truncated or malformed makes the buffer "not representing a valid OrderBook"
(`ProgramError::InvalidAccountData`, spec §4.4 and §7). -/
def decodeOrders : Nat → List Nat → Except ProgramError (List Order × List Nat)
  | 0, data => Except.ok ([], data)
  | n + 1, data =>
    if 49 ≤ data.length then
      match Order.unpack (data.take 49) with
      | RResult.ok o =>
          match decodeOrders n (data.drop 49) with
          | Except.ok (os, rest) => Except.ok (o :: os, rest)
          | Except.error e => Except.error e
      | _ => Except.error ProgramError.invalidAccountData
    else Except.error ProgramError.invalidAccountData

/-- Modelled from the spec: the order-book storage layout. §6 fixes it as the
concatenation of the per-order codec for `buy_orders` then `sell_orders` and
leaves the framing to an external convention; per the open question of §9 a
count prefix is chosen: one little-endian `u64` count before each collection. -/
def OrderBook.pack (b : OrderBook) : List Nat :=
  u64ToLeBytes b.buy_orders.length ++ (b.buy_orders.map Order.pack).flatten ++
    u64ToLeBytes b.sell_orders.length ++ (b.sell_orders.map Order.pack).flatten

/-- Modelled from the spec: `OrderBook::from_account_info` is called by every
handler in the source but defined nowhere in it. Per §3 the book is
materialized by decoding the persisted byte buffer; a buffer that does not
parse under the layout of `OrderBook.pack` is
`ProgramError::InvalidAccountData` (§4.4 step 3, §7). -/
def OrderBook.from_account_info (data : List Nat) : Except ProgramError OrderBook :=
  if 8 ≤ data.length then
    match decodeOrders (leBytesToNat (data.take 8)) (data.drop 8) with
    | Except.ok (buys, rest) =>
        if 8 ≤ rest.length then
          match decodeOrders (leBytesToNat (rest.take 8)) (rest.drop 8) with
          | Except.ok (sells, rest2) =>
              if rest2 = [] then Except.ok ⟨buys, sells⟩
              else Except.error ProgramError.invalidAccountData
          | Except.error e => Except.error e
        else Except.error ProgramError.invalidAccountData
    | Except.error e => Except.error e
  else Except.error ProgramError.invalidAccountData

/-- `process_place_order`: decodes the book from the account, pushes the order
onto the decoded in-memory copy, and returns `Ok(())`. The source never
re-encodes the book nor writes anything back to the account, so the returned
buffer is the input buffer. -/
def process_place_order (state : List Nat) (order : Order) :
    Except ProgramError Unit × List Nat :=
  match OrderBook.from_account_info state with
  | Except.error e => (Except.error e, state)
  | Except.ok order_book =>
      let _updated := order_book.add_order order
      (Except.ok (), state)

/-- `process_get_best_buy_order`: decodes the book, takes
`get_best_buy_order()`, maps `None` to `ProgramError::InvalidAccountData`, and
on success only logs the order with `msg!` and returns `Ok(())` — the success
value carries no payload and the account is untouched. -/
def process_get_best_buy_order (state : List Nat) :
    Except ProgramError Unit × List Nat :=
  match OrderBook.from_account_info state with
  | Except.error e => (Except.error e, state)
  | Except.ok order_book =>
      match order_book.get_best_buy_order with
      | none => (Except.error ProgramError.invalidAccountData, state)
      | some _best => (Except.ok (), state)

/-- `process_get_best_sell` (the source spells the sell handler without the
trailing `_order`): symmetric to `process_get_best_buy_order`. -/
def process_get_best_sell (state : List Nat) :
    Except ProgramError Unit × List Nat :=
  match OrderBook.from_account_info state with
  | Except.error e => (Except.error e, state)
  | Except.ok order_book =>
      match order_book.get_best_sell_order with
      | none => (Except.error ProgramError.invalidAccountData, state)
      | some _best => (Except.ok (), state)

/-! ### Concrete fixtures used by witnesses and counterexamples -/

/-- An all-zero 32-byte trader identity. -/
def traderZero : Pubkey :=
  ⟨List.replicate 32 0⟩

/-- A concrete order: `ordAt amount price type` with the all-zero trader. -/
def ordAt (amount price : Nat) (t : OrderType) : Order :=
  ⟨traderZero, amount, price, t⟩

/-- The stored encoding of the empty order book (two zero counts). -/
def emptyBookBytes : List Nat :=
  (OrderBook.mk [] []).pack

/-- A concrete valid buy order. -/
def buyOrder0 : Order :=
  ordAt 100 500 OrderType.Buy

/-- The stored encoding of the book holding exactly `buyOrder0`. -/
def oneBuyBookBytes : List Nat :=
  (OrderBook.mk [buyOrder0] []).pack

/-- The spec's selection example: buy prices [500, 700, 700, 300] inserted in
that order (the two 700-priced entries are distinguished by their amounts). -/
def exampleBuyBook : OrderBook :=
  OrderBook.mk
    [ordAt 1 500 OrderType.Buy, ordAt 2 700 OrderType.Buy,
     ordAt 3 700 OrderType.Buy, ordAt 4 300 OrderType.Buy] []

/-- A sell book with a tied minimum price: prices [500, 400, 400]. -/
def exampleSellBook : OrderBook :=
  OrderBook.mk [] [ordAt 1 500 OrderType.Sell, ordAt 2 400 OrderType.Sell,
    ordAt 3 400 OrderType.Sell]

/-- A mixed run of orders for exercising `add_order`. -/
def mixedOrders : List Order :=
  [ordAt 1 10 OrderType.Buy, ordAt 2 20 OrderType.Sell, ordAt 3 30 OrderType.Buy]

/-- A 51-byte tail for a `PlaceOrder` payload: 49 order bytes (type byte 0)
followed by two junk bytes. -/
def longTailBytes : List Nat :=
  List.replicate 49 0 ++ [77, 88]

/-! ### `add_order` lemmas -/

theorem add_order_buy (b : OrderBook) (o : Order) (h : o.order_type = OrderType.Buy) :
    (b.add_order o).buy_orders = b.buy_orders ++ [o] ∧
    (b.add_order o).sell_orders = b.sell_orders := by
  simp [OrderBook.add_order, h]

theorem add_order_sell (b : OrderBook) (o : Order) (h : o.order_type = OrderType.Sell) :
    (b.add_order o).sell_orders = b.sell_orders ++ [o] ∧
    (b.add_order o).buy_orders = b.buy_orders := by
  simp [OrderBook.add_order, h]

theorem add_order_wellTyped (b : OrderBook) (o : Order) (h : b.WellTyped) :
    (b.add_order o).WellTyped := by
  obtain ⟨hb, hs⟩ := h
  cases hty : o.order_type with
  | Buy =>
      obtain ⟨h1, h2⟩ := add_order_buy b o hty
      refine ⟨?_, ?_⟩
      · rw [h1]
        intro y hy
        rcases List.mem_append.mp hy with hy | hy
        · exact hb y hy
        · rw [List.mem_singleton.mp hy]; exact hty
      · rw [h2]; exact hs
  | Sell =>
      obtain ⟨h1, h2⟩ := add_order_sell b o hty
      refine ⟨?_, ?_⟩
      · rw [h2]; exact hb
      · rw [h1]
        intro y hy
        rcases List.mem_append.mp hy with hy | hy
        · exact hs y hy
        · rw [List.mem_singleton.mp hy]; exact hty

theorem foldl_add_order_wellTyped (orders : List Order) :
    ∀ b : OrderBook, b.WellTyped → (orders.foldl OrderBook.add_order b).WellTyped := by
  induction orders with
  | nil => intro b h; exact h
  | cons o os ih =>
      intro b h
      rw [List.foldl_cons]
      exact ih _ (add_order_wellTyped b o h)

/-! ### State preservation of the handlers -/

theorem process_place_order_state (state : List Nat) (o : Order) :
    (process_place_order state o).2 = state := by
  unfold process_place_order
  split <;> rfl

theorem process_get_best_buy_order_state (state : List Nat) :
    (process_get_best_buy_order state).2 = state := by
  unfold process_get_best_buy_order
  split
  · rfl
  · split <;> rfl

theorem process_get_best_sell_state (state : List Nat) :
    (process_get_best_sell state).2 = state := by
  unfold process_get_best_sell
  split
  · rfl
  · split <;> rfl

/-! ## Claims -/

/-- Claim C1, counterexample: for buy prices [500, 700, 700, 300] inserted in
that order, `get_best_buy_order` returns the 700-priced order at index 2 — the
*last* of the two tied orders — and that order differs from the one at index 1,
so the claimed "first such order in insertion order" is false on the code. -/
theorem C1_counterexample :
    exampleBuyBook.get_best_buy_order = some (ordAt 3 700 OrderType.Buy) ∧
    ordAt 3 700 OrderType.Buy ≠ ordAt 2 700 OrderType.Buy := by
  decide

/-- Claim C1, amended: for every order book whose `buy_orders` is non-empty,
`get_best_buy_order` returns an order with the maximum price, and when several
buy orders share that maximum it returns the **last** such order in insertion
order: the result splits `buy_orders` as `l₁ ++ r :: l₂` with every entry of
`l₁` priced at most `r.price` and every entry of `l₂` priced strictly below. -/
theorem C1_best_buy_last_max (b : OrderBook) (h : b.buy_orders ≠ []) :
    ∃ r l₁ l₂, b.get_best_buy_order = some r ∧ b.buy_orders = l₁ ++ r :: l₂ ∧
      (∀ y ∈ b.buy_orders, y.price ≤ r.price) ∧
      (∀ y ∈ l₁, y.price ≤ r.price) ∧
      (∀ y ∈ l₂, y.price < r.price) :=
  get_best_buy_order_split b h

/-- Claim C1, witness: the amended theorem applied to the spec's example book. -/
theorem C1_best_buy_last_max_witness :
    ∃ r l₁ l₂, exampleBuyBook.get_best_buy_order = some r ∧
      exampleBuyBook.buy_orders = l₁ ++ r :: l₂ ∧
      (∀ y ∈ exampleBuyBook.buy_orders, y.price ≤ r.price) ∧
      (∀ y ∈ l₁, y.price ≤ r.price) ∧
      (∀ y ∈ l₂, y.price < r.price) :=
  C1_best_buy_last_max exampleBuyBook (by decide)

/-- Claim C2: decoding the 49-byte encoding of any valid order yields the
order back: `Order::unpack (Order::pack o) = Ok(o)`. -/
theorem C2_order_roundtrip (o : Order) (h : o.Valid) :
    Order.unpack o.pack = RResult.ok o :=
  Order.unpack_pack o h

/-- Claim C2, witness: the round trip evaluated on a concrete valid order. -/
theorem C2_order_roundtrip_witness :
    buyOrder0.Valid ∧ Order.unpack buyOrder0.pack = RResult.ok buyOrder0 :=
  ⟨by decide, C2_order_roundtrip buyOrder0 (by decide)⟩

/-- Claim C3, counterexample: on the empty buffer `Order::unpack` panics (the
`array_ref!` bounds check fails) instead of returning any error value, so the
claim that every sub-49-byte input yields a `TruncatedInput` *error* is false
on the code. -/
theorem C3_counterexample :
    Order.unpack [] = RResult.panicked := by
  decide

/-- Claim C3, amended: `Order::unpack` is *not* total — any input shorter than
48 bytes panics in the `array_ref!` bounds checks; an input of exactly 48
bytes (the only sub-49-byte length that survives the slices) fails with
`ProgramError::InvalidAccountData` when `data.get(48)` comes back `None`.
There is no `TruncatedInput` error anywhere in the code. -/
theorem C3_unpack_truncated (data : List Nat) :
    (data.length < 48 → Order.unpack data = RResult.panicked) ∧
    (data.length = 48 → Order.unpack data = RResult.err ProgramError.invalidAccountData) :=
  ⟨fun h => Order.unpack_short data h, fun h => Order.unpack_length48 data h⟩

/-- Claim C3, witness: both truncation behaviours at concrete lengths. -/
theorem C3_unpack_truncated_witness :
    Order.unpack (List.replicate 47 3) = RResult.panicked ∧
    Order.unpack (List.replicate 48 3) = RResult.err ProgramError.invalidAccountData :=
  ⟨(C3_unpack_truncated _).1 (by decide), (C3_unpack_truncated _).2 (by decide)⟩

/-- Claim C4: `get_best_sell_order` on a non-empty sell side returns an order
with the minimum price and, on ties, the *first* such order in insertion order
(every entry before the result is priced strictly above it, every entry after
it at least as high); both selectors return `none` on their empty side. -/
theorem C4_best_sell_first_min (b : OrderBook) :
    (b.sell_orders = [] → b.get_best_sell_order = none) ∧
    (b.buy_orders = [] → b.get_best_buy_order = none) ∧
    (b.sell_orders ≠ [] →
      ∃ r l₁ l₂, b.get_best_sell_order = some r ∧ b.sell_orders = l₁ ++ r :: l₂ ∧
        (∀ y ∈ b.sell_orders, r.price ≤ y.price) ∧
        (∀ y ∈ l₁, r.price < y.price) ∧
        (∀ y ∈ l₂, r.price ≤ y.price)) :=
  ⟨get_best_sell_order_empty b, get_best_buy_order_empty b, get_best_sell_order_split b⟩

/-- Claim C4, witness: the empty book yields `none` on both sides, and on the
tied sell book the theorem produces the decomposition around the first
minimum (concretely the 400-priced order at index 1, not index 2). -/
theorem C4_best_sell_first_min_witness :
    (OrderBook.mk [] []).get_best_sell_order = none ∧
    exampleSellBook.get_best_sell_order = some (ordAt 2 400 OrderType.Sell) ∧
    (∃ r l₁ l₂, exampleSellBook.get_best_sell_order = some r ∧
      exampleSellBook.sell_orders = l₁ ++ r :: l₂ ∧
      (∀ y ∈ exampleSellBook.sell_orders, r.price ≤ y.price) ∧
      (∀ y ∈ l₁, r.price < y.price) ∧
      (∀ y ∈ l₂, r.price ≤ y.price)) :=
  ⟨(C4_best_sell_first_min (OrderBook.mk [] [])).1 rfl, by decide,
    (C4_best_sell_first_min exampleSellBook).2.2 (by decide)⟩

/-- Claim C5: decoding the encoding of any valid instruction yields the
instruction back, and the encoding is 1 byte for the two query variants and
50 bytes (1 tag byte + 49 order bytes) for `PlaceOrder`. -/
theorem C5_instruction_roundtrip (i : OrderBookInstruction) (h : i.Valid) :
    OrderBookInstruction.unpack i.pack = RResult.ok i ∧
    i.pack.length = match i with
      | OrderBookInstruction.PlaceOrder _ => 50
      | _ => 1 :=
  ⟨instruction_unpack_pack i h, instruction_pack_length i h⟩

/-- Claim C5, witness: the round trip and lengths on a concrete `PlaceOrder`
and on `GetBestBuyOrder`. -/
theorem C5_instruction_roundtrip_witness :
    (OrderBookInstruction.PlaceOrder buyOrder0).Valid ∧
    OrderBookInstruction.unpack (OrderBookInstruction.PlaceOrder buyOrder0).pack
      = RResult.ok (OrderBookInstruction.PlaceOrder buyOrder0) ∧
    (OrderBookInstruction.PlaceOrder buyOrder0).pack.length = 50 ∧
    OrderBookInstruction.unpack OrderBookInstruction.GetBestBuyOrder.pack
      = RResult.ok OrderBookInstruction.GetBestBuyOrder ∧
    OrderBookInstruction.GetBestBuyOrder.pack.length = 1 :=
  ⟨by decide,
    (C5_instruction_roundtrip _ (by decide)).1,
    (C5_instruction_roundtrip _ (by decide)).2,
    (C5_instruction_roundtrip _ (by decide)).1,
    (C5_instruction_roundtrip _ (by decide)).2⟩

/-- Claim C6, counterexample: the empty buffer and the unknown tag `[3]`
produce the *identical* error value (`ProgramError::InvalidInstructionData`),
so there are no distinct `EmptyInput`/`UnknownTag` errors; and a 49-byte
buffer with type byte 9 fails with `ProgramError::InvalidAccountData` — the
same value used for account failures — not a distinct `InvalidOrderType`. -/
theorem C6_counterexample :
    OrderBookInstruction.unpack [] = OrderBookInstruction.unpack [3] ∧
    Order.unpack (List.replicate 48 0 ++ [9])
      = RResult.err ProgramError.invalidAccountData := by
  decide

/-- Claim C6, amended: `OrderBookInstruction::unpack` fails with
`ProgramError::InvalidInstructionData` on the empty buffer and on every buffer
whose first byte is outside {0,1,2}; and on every 49-byte-or-longer buffer
whose byte at offset 48 is neither 0 nor 1, `Order::unpack` fails with
`ProgramError::InvalidAccountData` rather than defaulting. -/
theorem C6_decode_errors :
    (OrderBookInstruction.unpack [] = RResult.err ProgramError.invalidInstructionData) ∧
    (∀ t rest, 3 ≤ t →
      OrderBookInstruction.unpack (t :: rest)
        = RResult.err ProgramError.invalidInstructionData) ∧
    (∀ data v, 49 ≤ data.length → data.get? 48 = some v → v ≠ 0 → v ≠ 1 →
      Order.unpack data = RResult.err ProgramError.invalidAccountData) := by
  refine ⟨rfl, ?_, ?_⟩
  · intro t rest h
    obtain ⟨k, rfl⟩ : ∃ k, t = k + 3 := ⟨t - 3, by omega⟩
    rfl
  · intro data v hlen hv h0 h1
    exact Order.unpack_bad_type data v (by omega) hv (by omega)

/-- Claim C6, witness: a concrete unknown tag and a concrete bad type byte. -/
theorem C6_decode_errors_witness :
    OrderBookInstruction.unpack [7, 1, 2] = RResult.err ProgramError.invalidInstructionData ∧
    Order.unpack (List.replicate 48 1 ++ [5]) = RResult.err ProgramError.invalidAccountData :=
  ⟨C6_decode_errors.2.1 7 [1, 2] (by decide),
    C6_decode_errors.2.2 (List.replicate 48 1 ++ [5]) 5 (by decide) (by decide)
      (by decide) (by decide)⟩

/-- Claim C7: starting from a book satisfying the invariant, any sequence of
`add_order` operations preserves it (every buy-side member is a `Buy`, every
sell-side member a `Sell`); and one `add_order` appends exactly the new order
at the end of exactly the side named by its type, leaving the other side — and
every existing entry and its position — untouched. -/
theorem C7_add_order_invariant (b : OrderBook) (orders : List Order) (o : Order) :
    (b.WellTyped → (orders.foldl OrderBook.add_order b).WellTyped) ∧
    (o.order_type = OrderType.Buy →
      (b.add_order o).buy_orders = b.buy_orders ++ [o] ∧
      (b.add_order o).sell_orders = b.sell_orders) ∧
    (o.order_type = OrderType.Sell →
      (b.add_order o).sell_orders = b.sell_orders ++ [o] ∧
      (b.add_order o).buy_orders = b.buy_orders) :=
  ⟨foldl_add_order_wellTyped orders b, add_order_buy b o, add_order_sell b o⟩

/-- Claim C7, witness: the invariant after a concrete mixed run from the empty
book, and the additivity equations for one concrete buy order. -/
theorem C7_add_order_invariant_witness :
    (mixedOrders.foldl OrderBook.add_order (OrderBook.mk [] [])).WellTyped ∧
    ((OrderBook.mk [] []).add_order (ordAt 1 10 OrderType.Buy)).buy_orders
      = [] ++ [ordAt 1 10 OrderType.Buy] ∧
    ((OrderBook.mk [] []).add_order (ordAt 1 10 OrderType.Buy)).sell_orders = [] :=
  ⟨(C7_add_order_invariant (OrderBook.mk [] []) mixedOrders (ordAt 1 10 OrderType.Buy)).1
      (by decide),
    ((C7_add_order_invariant (OrderBook.mk [] []) mixedOrders (ordAt 1 10 OrderType.Buy)).2.1
      (by decide)).1,
    ((C7_add_order_invariant (OrderBook.mk [] []) mixedOrders (ordAt 1 10 OrderType.Buy)).2.1
      (by decide)).2⟩

/-- Claim C8: the query handlers never change the state buffer, and the empty
side is signalled as an error — but on success the code only logs the best
order and returns `Ok(())`: no 49-byte output payload exists anywhere in the
handler (the code's own test expects `result.data` to hold the packed order),
and the empty-side error is the generic `ProgramError::InvalidAccountData`,
not a distinct `NoOrdersAvailable`. -/
theorem C8_query_no_payload :
    (∀ state : List Nat,
      (process_get_best_buy_order state).2 = state ∧
      (process_get_best_sell state).2 = state) ∧
    process_get_best_buy_order oneBuyBookBytes = (Except.ok (), oneBuyBookBytes) ∧
    process_get_best_buy_order emptyBookBytes
      = (Except.error ProgramError.invalidAccountData, emptyBookBytes) :=
  ⟨fun state => ⟨process_get_best_buy_order_state state, process_get_best_sell_state state⟩,
    by decide, by decide⟩

/-- Claim C9: `process_place_order` decodes the book and appends the order to
the decoded in-memory copy, but never re-encodes it and never writes anything
back: for every state buffer the buffer after the call equals the buffer
before it, and concretely placing `buyOrder0` on the encoded empty book
succeeds yet leaves the stored bytes different from the encoding of the book
with the order appended. -/
theorem C9_place_order_not_persisted :
    (∀ (state : List Nat) (o : Order), (process_place_order state o).2 = state) ∧
    process_place_order emptyBookBytes buyOrder0 = (Except.ok (), emptyBookBytes) ∧
    emptyBookBytes ≠ ((OrderBook.mk [] []).add_order buyOrder0).pack :=
  ⟨fun state o => process_place_order_state state o, by decide, by decide⟩

/-- Claim C10, counterexample: a buffer whose first byte is 0 followed by 49
bytes whose type byte is 7 is rejected, so "for every buffer whose first byte
is 0 followed by at least 49 bytes, it succeeds" is false on the code. -/
theorem C10_counterexample :
    OrderBookInstruction.unpack (0 :: (List.replicate 48 0 ++ [7]))
      = RResult.err ProgramError.invalidInstructionData := by
  decide

/-- Claim C10, amended: trailing bytes are ignored — a buffer starting with
tag 1 or 2 decodes to the corresponding query whatever follows; for tag 0
followed by at least 49 bytes the result depends only on the 49 bytes after
the tag (bytes past offset 49 are ignored), and decoding succeeds whenever
the type byte at offset 49 of the buffer is 0 or 1; over-long input by itself
is never a failure. -/
theorem C10_trailing_bytes_ignored :
    (∀ rest : List Nat,
      OrderBookInstruction.unpack (1 :: rest) = RResult.ok OrderBookInstruction.GetBestBuyOrder) ∧
    (∀ rest : List Nat,
      OrderBookInstruction.unpack (2 :: rest) = RResult.ok OrderBookInstruction.GetBestSellOrder) ∧
    (∀ rest : List Nat, 49 ≤ rest.length →
      OrderBookInstruction.unpack (0 :: rest) = OrderBookInstruction.unpack (0 :: rest.take 49) ∧
      (∀ v, rest.get? 48 = some v → v < 2 →
        ∃ o, OrderBookInstruction.unpack (0 :: rest)
          = RResult.ok (OrderBookInstruction.PlaceOrder o))) := by
  refine ⟨fun rest => rfl, fun rest => rfl, ?_⟩
  intro rest hlen
  have htake : Order.unpack (rest.take 49) = Order.unpack rest :=
    Order.unpack_take49 rest (by omega)
  constructor
  · simp only [OrderBookInstruction.unpack, htake]
  · intro v hv hv2
    interval_cases v
    · exact ⟨{ trader := Pubkey.new_from_array (rest.take 32)
               amount := leBytesToNat ((rest.drop 32).take 8)
               price := leBytesToNat ((rest.drop 40).take 8)
               order_type := OrderType.Buy },
        by simp only [OrderBookInstruction.unpack,
          Order.unpack_type_buy rest (by omega) hv]⟩
    · exact ⟨{ trader := Pubkey.new_from_array (rest.take 32)
               amount := leBytesToNat ((rest.drop 32).take 8)
               price := leBytesToNat ((rest.drop 40).take 8)
               order_type := OrderType.Sell },
        by simp only [OrderBookInstruction.unpack,
          Order.unpack_type_sell rest (by omega) hv]⟩

/-- Claim C10, witness: concrete junk after tag 1, and a concrete 51-byte
tail after tag 0 where the junk past offset 49 is ignored and decoding
succeeds. -/
theorem C10_trailing_bytes_ignored_witness :
    OrderBookInstruction.unpack (1 :: [9, 9]) = RResult.ok OrderBookInstruction.GetBestBuyOrder ∧
    OrderBookInstruction.unpack (0 :: longTailBytes)
      = OrderBookInstruction.unpack (0 :: longTailBytes.take 49) ∧
    ∃ o, OrderBookInstruction.unpack (0 :: longTailBytes)
      = RResult.ok (OrderBookInstruction.PlaceOrder o) :=
  ⟨C10_trailing_bytes_ignored.1 [9, 9],
    (C10_trailing_bytes_ignored.2.2 longTailBytes (by decide)).1,
    (C10_trailing_bytes_ignored.2.2 longTailBytes (by decide)).2 0 (by decide) (by decide)⟩

end Fordex
